import Mathlib

/-!
Verification of the sigma-eclipse-llm core against its specification.

The development shallowly embeds the Rust sources of the repository:
`src-tauri/src/ipc_state.rs`, `src-tauri/src/server_manager.rs`,
`src-tauri/src/download/download_utils.rs`,
`src-tauri/src/download/llama_download.rs`,
`src-tauri/src/download/model_download.rs` and
`src-tauri/src/bin/native_messaging_host.rs`.

Machine integers (`u16`, `u32`, `u64`) are embedded as `Nat`: none of the
verified operations performs wrapping arithmetic, so no `% 2^w` reduction is
required.  The `f64` download percentage is embedded as `Rat`; the verified
claims only ever store and compare it.  External effects (the OS process
table, the HTTP stack, the zip library, the SHA-256 implementation) are
inputs of the embedded functions, and the shared JSON state file is threaded
explicitly as a value.
-/

/-- Embeds `IpcState` from `ipc_state.rs`.  `server_pid`, `server_port`,
`server_ctx_size`, `server_gpu_layers`, `tauri_app_pid` and
`tauri_app_heartbeat` are the optional integer fields of the Rust struct;
`download_progress` embeds `Option<f64>` as `Option Rat`. -/
structure IpcState where
  server_pid : Option Nat
  server_running : Bool
  is_downloading : Bool
  download_progress : Option Rat
  server_port : Option Nat
  server_ctx_size : Option Nat
  server_gpu_layers : Option Nat
  tauri_app_pid : Option Nat
  tauri_app_heartbeat : Option Nat
deriving Repr, DecidableEq

/-- Embeds `impl Default for IpcState`: the all-empty state. -/
def IpcState.default : IpcState where
  server_pid := none
  server_running := false
  is_downloading := false
  download_progress := none
  server_port := none
  server_ctx_size := none
  server_gpu_layers := none
  tauri_app_pid := none
  tauri_app_heartbeat := none

/-- Embeds `update_server_status` from `ipc_state.rs`.  The Rust function
reads the state file, sets the two server fields and writes the whole
document back; with the file content threaded as a value this is a record
update. -/
def update_server_status (running : Bool) (pid : Option Nat) (st : IpcState) : IpcState :=
  { st with server_running := running, server_pid := pid }

/-- Embeds `update_download_status` from `ipc_state.rs`: read-modify-write
of the two download fields. -/
def update_download_status (downloading : Bool) (progress : Option Rat) (st : IpcState) :
    IpcState :=
  { st with is_downloading := downloading, download_progress := progress }

/-!
## UTF-8 validation and the state-file reader

`read_ipc_state` in `ipc_state.rs` calls `fs::read_to_string`, which fails
when the file's bytes are not valid UTF-8, and then parses with
`serde_json::from_str(..).unwrap_or_default()`, which never fails.  The
byte-level UTF-8 acceptance test below is the one Rust's standard library
performs: it rejects stray continuation bytes, overlong encodings, surrogate
code points and code points above `0x10FFFF`.
-/

/-- A UTF-8 continuation byte: `0x80..=0xBF`. -/
def isCont (b : Nat) : Bool := 0x80 ≤ b && b ≤ 0xBF

/-- Decode a byte list as UTF-8, exactly as `fs::read_to_string` accepts it.
Returns `none` on any invalid sequence. -/
def utf8Decode : List Nat → Option (List Char)
  | [] => some []
  | b :: l =>
    if b < 0x80 then
      (utf8Decode l).map (fun cs => Char.ofNat b :: cs)
    else if b < 0xC2 then
      none
    else if b < 0xE0 then
      match l with
      | b1 :: l1 =>
        if isCont b1 then
          (utf8Decode l1).map (fun cs => Char.ofNat ((b - 0xC0) * 0x40 + (b1 - 0x80)) :: cs)
        else none
      | _ => none
    else if b < 0xF0 then
      match l with
      | b1 :: b2 :: l2 =>
        let cp := (b - 0xE0) * 0x1000 + (b1 - 0x80) * 0x40 + (b2 - 0x80)
        if isCont b1 && isCont b2 && decide (0x800 ≤ cp) &&
            !(0xD800 ≤ cp && cp ≤ 0xDFFF) then
          (utf8Decode l2).map (fun cs => Char.ofNat cp :: cs)
        else none
      | _ => none
    else if b < 0xF5 then
      match l with
      | b1 :: b2 :: b3 :: l3 =>
        let cp := (b - 0xF0) * 0x40000 + (b1 - 0x80) * 0x1000 +
          (b2 - 0x80) * 0x40 + (b3 - 0x80)
        if isCont b1 && isCont b2 && isCont b3 &&
            decide (0x10000 ≤ cp) && decide (cp ≤ 0x10FFFF) then
          (utf8Decode l3).map (fun cs => Char.ofNat cp :: cs)
        else none
      | _ => none
    else none

/-- Embeds `read_ipc_state` from `ipc_state.rs`.  The on-disk file is
threaded as `Option (List Nat)` (`none` = the file does not exist).
`parse` stands for `serde_json::from_str::<IpcState>`, an external library
call; the Rust code applies `.unwrap_or_default()` to its result, so parse
failures yield the default state, while a `fs::read_to_string` failure
(invalid UTF-8) is propagated as an error by the `?`-style `context` chain. -/
def read_ipc_state (parse : String → Option IpcState) (file : Option (List Nat)) :
    Except String IpcState :=
  match file with
  | none => Except.ok IpcState.default
  | some bytes =>
    match utf8Decode bytes with
    | none => Except.error "Failed to read IPC state file"
    | some cs => Except.ok ((parse (String.mk cs)).getD IpcState.default)

/-- Boolean success test for `Except`. -/
def exceptOk {ε α : Type} : Except ε α → Bool
  | Except.ok _ => true
  | Except.error _ => false

/-!
## Server process manager (`server_manager.rs`)

The OS process-existence probe `is_process_running` is an input
`alive : Nat → Bool`; spawning is an input `Except String Nat` producing the
child pid.  Every embedded operation returns its result together with the
state-file content after the operation.
-/

/-- Embeds `ServerConfig` from `server_manager.rs` (`u16`/`u32` fields as
`Nat`). -/
structure ServerConfig where
  port : Nat
  ctx_size : Nat
  gpu_layers : Nat
deriving Repr, DecidableEq

/-- Embeds `validate_config` from `server_manager.rs`. -/
def validate_config (config : ServerConfig) : Except String Unit :=
  if config.ctx_size < 6000 || config.ctx_size > 100000 then
    Except.error "Context size must be between 6000 and 100000"
  else if config.gpu_layers > 41 then
    Except.error "GPU layers must be between 0 and 41"
  else
    Except.ok ()

/-- Embeds `check_server_running` from `server_manager.rs`: returns the live
pid if the recorded server is actually alive, and as a side effect clears a
stale record. -/
def check_server_running (alive : Nat → Bool) (st : IpcState) : Option Nat × IpcState :=
  if st.server_running then
    match st.server_pid with
    | some pid =>
      if alive pid then (some pid, st)
      else (none, update_server_status false none st)
    | none => (none, st)
  else (none, st)

/-- Environment of `start_server_process`: the OS probe, whether the llama
binary and the active model file exist on disk, whether path/settings
resolution succeeds, and the result of `Command::spawn` (the child pid). -/
structure StartEnv where
  alive : Nat → Bool
  resolutionOk : Bool
  binaryExists : Bool
  modelExists : Bool
  spawn : Except String Nat

/-- Embeds `start_server_process` from `server_manager.rs`.  Returns the
spawn result, the state-file content on return, and whether a process was
spawned. -/
def start_server_process (env : StartEnv) (config : ServerConfig) (st : IpcState) :
    Except String Nat × IpcState × Bool :=
  match validate_config config with
  | Except.error e => (Except.error e, st, false)
  | Except.ok _ =>
    match check_server_running env.alive st with
    | (some pid, st1) =>
      (Except.error ("Server is already running (PID: " ++ toString pid ++ ")"), st1, false)
    | (none, st1) =>
      if !env.resolutionOk then
        (Except.error "Failed to get binary path", st1, false)
      else if !env.binaryExists then
        (Except.error "llama.cpp not found. Please download it first.", st1, false)
      else if !env.modelExists then
        (Except.error "Model not found. Please download it first.", st1, false)
      else
        match env.spawn with
        | Except.error e => (Except.error e, st1, false)
        | Except.ok pid =>
          let st2 := update_server_status true (some pid) st1
          let st3 := { st2 with
            server_port := some config.port
            server_ctx_size := some config.ctx_size
            server_gpu_layers := some config.gpu_layers }
          (Except.ok pid, st3, true)

/-- Embeds `stop_server_by_pid` from `server_manager.rs`.  The group
`SIGTERM`/`SIGKILL` (or `taskkill`) signals are fire-and-forget external
effects whose results the Rust code ignores, so they leave no trace in the
embedding; the function then unconditionally clears the server fields of the
shared state in two read-modify-write rounds. -/
def stop_server_by_pid (pid : Nat) (st : IpcState) : Except String Unit × IpcState :=
  let st1 := update_server_status false none st
  let st2 := { st1 with
    server_port := none
    server_ctx_size := none
    server_gpu_layers := none }
  (Except.ok (), st2)

/-- Embeds `get_status` from `server_manager.rs`: computes liveness from the
recorded flag and pid plus the OS probe, self-heals a stale record, and
returns `(is_running, state.server_pid)` where `state` is the snapshot that
was read. -/
def get_status (alive : Nat → Bool) (st : IpcState) : (Bool × Option Nat) × IpcState :=
  let is_running :=
    if st.server_running then
      match st.server_pid with
      | some pid => alive pid
      | none => false
    else false
  let st1 := if st.server_running && !is_running then update_server_status false none st else st
  ((is_running, st.server_pid), st1)

/-!
## Download engine (`download/download_utils.rs`, `download/llama_download.rs`,
`download/model_download.rs`)

The SHA-256 of the downloaded file is an oracle input (the `sha2` crate is
external); the HTTP stack is an input: the initial request yields either an
error string or a total size plus a stream of chunk events, and each
reconnect attempt yields either an error string or a fresh stream.  File
writes, flushes and syncs performed inside the loop are modelled as always
succeeding; the failing input exercised below needs only chunk-read errors.
-/

/-- ASCII case folding, embedding the `str::to_lowercase` calls of
`verify_sha256`: both compared strings are hex SHA-256 digests, so only the
ASCII letters are in play. -/
def asciiLower (c : Char) : Char :=
  if 65 ≤ c.toNat ∧ c.toNat ≤ 90 then Char.ofNat (c.toNat + 32) else c

/-- Lower-case a string character-wise. -/
def strLower (s : String) : String := String.mk (s.data.map asciiLower)

/-- Embeds `verify_sha256` from `download/download_utils.rs`.
`calculatedHash` is the SHA-256 hex digest computed from the file by
`calculate_sha256`. -/
def verify_sha256 (calculatedHash expectedHash : String) : Except String Unit :=
  if expectedHash = "" then Except.ok ()
  else if strLower calculatedHash ≠ strLower expectedHash then
    Except.error ("SHA-256 checksum verification failed! Expected: " ++ expectedHash ++
      " Got: " ++ calculatedHash)
  else Except.ok ()

/-- One event of `response.bytes_stream()`: a chunk of the given byte size,
or a chunk-read error. -/
inductive StreamEvent where
  | chunk (size : Nat)
  | chunkErr
deriving Repr, DecidableEq

/-- Environment of `download_llama_cpp`: range support, any pre-existing
partial file, the initial HTTP response, the responses of successive
reconnect attempts, and the outcomes of the post-download steps. -/
structure LlamaEnv where
  supportsResume : Bool
  zipExists : Bool
  existingSize : Nat
  initResponse : Except String (Option Nat × List StreamEvent)
  reconnects : Nat → Except String (List StreamEvent)
  expectedHash : String
  fileHash : String
  archiveOk : Bool
  extractOutcome : Except String Unit
  permsOk : Bool
  writeVersionOk : Bool

/-- The mutable locals of the download loop in `download_llama_cpp`:
`downloaded`, `last_emit_mb`, `consecutive_errors`, the index of the next
reconnect attempt, and the shared state file content. -/
structure LoopSt where
  downloaded : Nat
  lastEmitMb : Nat
  consecErrors : Nat
  attempt : Nat
  ipc : IpcState
deriving Repr, DecidableEq

/-- Result of the download loop. -/
inductive LoopRes where
  | noFuel
  | failed (msg : String) (ipc : IpcState)
  | finished (downloaded : Nat) (ipc : IpcState)
deriving Repr, DecidableEq

/-- Percentage reported to the shared state: `(downloaded / total) * 100`
when the total size is known. -/
def pctOf (downloaded : Nat) (total : Option Nat) : Option Rat :=
  total.map (fun t => ((downloaded : Rat) / (t : Rat)) * 100)

/-- Embeds the `loop { match stream.next().await { .. } }` of
`download_llama_cpp` (`download/llama_download.rs`, the chunk/error/None
arms).  `MAX_CHUNK_RETRIES = 10`; emission is throttled to every 10 MiB or
on reaching the known total.  On a chunk error past the retry budget, or
with no range support, or on a failed reconnect, the loop returns the error
without touching the download-status fields — exactly as the Rust `return
Err(..)` / `?` paths do. -/
def llamaLoop (env : LlamaEnv) (totalSize : Option Nat) :
    Nat → List StreamEvent → LoopSt → LoopRes
  | 0, _, _ => LoopRes.noFuel
  | _ + 1, [], st => LoopRes.finished st.downloaded st.ipc
  | fuel + 1, ev :: evs, st =>
    match ev with
    | StreamEvent.chunk size =>
      let downloaded := st.downloaded + size
      let currentMb := downloaded / (10 * 1024 * 1024)
      let hitTotal := match totalSize with
        | some t => decide (t ≤ downloaded)
        | none => false
      if currentMb > st.lastEmitMb || hitTotal then
        llamaLoop env totalSize fuel evs
          { st with
            downloaded := downloaded
            lastEmitMb := currentMb
            consecErrors := 0
            ipc := update_download_status true (pctOf downloaded totalSize) st.ipc }
      else
        llamaLoop env totalSize fuel evs { st with downloaded := downloaded, consecErrors := 0 }
    | StreamEvent.chunkErr =>
      let ce := st.consecErrors + 1
      if 10 ≤ ce then
        LoopRes.failed "Failed to read chunk after 10 retries" st.ipc
      else if !env.supportsResume then
        LoopRes.failed "Failed to read chunk and server does not support resume" st.ipc
      else
        match env.reconnects st.attempt with
        | Except.error e => LoopRes.failed e st.ipc
        | Except.ok evs2 =>
          llamaLoop env totalSize fuel evs2
            { st with consecErrors := ce, attempt := st.attempt + 1 }

/-- The steps of `download_llama_cpp` after the stream finished: checksum
verification (guarded by a non-empty configured hash), opening and reading
the zip archive, extraction, the Unix permission fix-up, and the version
file write.  The archive and extraction failure arms clear the download
status; the permission and version-file arms propagate with `?` and do
not. -/
def llamaPost (env : LlamaEnv) (ipc : IpcState) : Except String String × IpcState :=
  if !env.archiveOk then
    (Except.error "Failed to read zip archive", update_download_status false none ipc)
  else
    match env.extractOutcome with
    | Except.error e => (Except.error e, update_download_status false none ipc)
    | Except.ok _ =>
      if !env.permsOk then
        (Except.error "Failed to set permissions", ipc)
      else if !env.writeVersionOk then
        (Except.error "Failed to write version file", ipc)
      else
        (Except.ok "Downloaded llama.cpp", update_download_status false none ipc)

/-- Embeds `download_llama_cpp` from `download/llama_download.rs`, from the
range probe onward (the earlier steps — config load, version check, cleanup
— touch no download-status field and exit before any download state is
set).  Returns `none` when the explicit fuel for the streaming loop runs
out, otherwise the command result together with the state-file content on
return. -/
def download_llama_cpp (env : LlamaEnv) (fuel : Nat) (st0 : IpcState) :
    Option (Except String String × IpcState) :=
  let downloaded0 := if env.supportsResume && env.zipExists then env.existingSize else 0
  match env.initResponse with
  | Except.error e => some (Except.error e, st0)
  | Except.ok (totalSize, evs) =>
    let ipc1 := update_download_status true (some ((pctOf downloaded0 totalSize).getD 0)) st0
    let st := LoopSt.mk downloaded0 (downloaded0 / (10 * 1024 * 1024)) 0 0 ipc1
    match llamaLoop env totalSize fuel evs st with
    | LoopRes.noFuel => none
    | LoopRes.failed msg ipc => some (Except.error msg, ipc)
    | LoopRes.finished _ ipc =>
      if env.expectedHash ≠ "" then
        match verify_sha256 env.fileHash env.expectedHash with
        | Except.error e =>
          some (Except.error ("Checksum verification failed: " ++ e),
            update_download_status false none ipc)
        | Except.ok _ => some (llamaPost env ipc)
      else some (llamaPost env ipc)

/-- Environment of `download_model_common`: the outcome of
`download_with_progress` (that helper clears nothing itself; its caller
does), whether a partial file remains when it failed, the SHA-256 oracle of
the downloaded file, the configured hash, and the extraction outcome. -/
structure ModelEnv where
  downloadOutcome : Except String Nat
  errLeavesFile : Bool
  fileHash : String
  expectedHash : String
  extractOutcome : Except String Unit

/-- Embeds `download_model_common` from `download/model_download.rs`.
Returns the command result, the state-file content on return, and whether
the destination `model.zip` exists after the call. -/
def download_model_common (env : ModelEnv) (st0 : IpcState) :
    Except String String × IpcState × Bool :=
  match env.downloadOutcome with
  | Except.error e => (Except.error e, update_download_status false none st0, env.errLeavesFile)
  | Except.ok _ =>
    match verify_sha256 env.fileHash env.expectedHash with
    | Except.error e =>
      (Except.error ("Model checksum verification failed: " ++ e),
        update_download_status false none st0, false)
    | Except.ok _ =>
      match env.extractOutcome with
      | Except.error e => (Except.error e, update_download_status false none st0, true)
      | Except.ok _ =>
        (Except.ok "Model downloaded and extracted", update_download_status false none st0, false)

/-!
## Messaging host (`bin/native_messaging_host.rs`)
-/

/-- Embeds `CachedStatus` from `bin/native_messaging_host.rs` (the push
snapshot); the `f64` progress is a `Rat` here. -/
structure CachedStatus where
  app_running : Bool
  model_running : Bool
  is_downloading : Bool
  download_progress : Option Rat
deriving Repr, DecidableEq

/-- Embeds `check_and_push_status`: `newStatus` is the freshly computed
snapshot (the liveness and state-file queries are inputs of the model), and
`cached` the `CACHED_STATUS` cell.  Returns whether a push was written and
the updated cell; the Rust code updates the cell even when writing the push
to stdout fails. -/
def check_and_push_status (newStatus : CachedStatus) (cached : Option CachedStatus) :
    Bool × Option CachedStatus :=
  let shouldPush : Bool := match cached with
    | some c => decide (c ≠ newStatus)
    | none => true
  if shouldPush then (true, some newStatus) else (false, cached)

/-!
## Wire framing (`read_message` / `send_response` in
`bin/native_messaging_host.rs`)

Both directions use a 4-byte native-endian `u32` length followed by that
many bytes of JSON.  All platforms the host builds for (x86-64 and AArch64)
are little-endian, so `to_ne_bytes`/`from_ne_bytes` are embedded as
little-endian; the round trip composes the two and holds for any single
consistent byte order.
-/

/-- Embeds `u32::to_ne_bytes` (little-endian byte order of every supported
target). -/
def u32NeBytes (n : Nat) : List Nat :=
  [n % 256, n / 256 % 256, n / 65536 % 256, n / 16777216 % 256]

/-- Embeds `u32::from_ne_bytes`. -/
def u32FromNeBytes (b0 b1 b2 b3 : Nat) : Nat :=
  b0 + 256 * b1 + 65536 * b2 + 16777216 * b3

/-- Embeds the writing half of `send_response`/`send_push`: the 4-byte
length prefix followed by the payload bytes. -/
def writeFrame (payload : List Nat) : List Nat :=
  u32NeBytes payload.length ++ payload

/-- Embeds the framing half of `read_message`: `read_exact` of 4 length
bytes, then `read_exact` of that many payload bytes; too short a stream is
a framing error (`none`).  Returns the payload and the unread rest. -/
def readFrame (stdin : List Nat) : Option (List Nat × List Nat) :=
  match stdin with
  | b0 :: b1 :: b2 :: b3 :: rest =>
    let len := u32FromNeBytes b0 b1 b2 b3
    if rest.length < len then none
    else some (rest.take len, rest.drop len)
  | _ => none

/-- The serde data model of a JSON document (`serde_json::Value`), with
numbers restricted to integers — the verified response structure stores no
numeric payload of its own. -/
inductive Json where
  | null
  | bool (b : Bool)
  | num (n : Int)
  | str (s : String)
  | arr (elems : List Json)
  | obj (fields : List (String × Json))

/-- Embeds `NativeResponse` from `bin/native_messaging_host.rs`: `id`
echoed, `success`, and optional `data` / `error` fields. -/
structure NativeResponse where
  id : String
  success : Bool
  data : Option Json
  error : Option String

/-- Embeds the `Serialize` derive on `NativeResponse`: an object with `id`
and `success`, and — because of `skip_serializing_if = "Option::is_none"` —
`data` and `error` keys only when present. -/
def encodeNativeResponse (r : NativeResponse) : Json :=
  Json.obj
    ([("id", Json.str r.id), ("success", Json.bool r.success)] ++
      (match r.data with
       | some v => [("data", v)]
       | none => []) ++
      (match r.error with
       | some e => [("error", Json.str e)]
       | none => []))

/-- First value bound to `key` in a JSON object. -/
def lookupField (fields : List (String × Json)) (key : String) : Option Json :=
  match fields with
  | [] => none
  | (k, v) :: rest => if k = key then some v else lookupField rest key

/-- Modelled from the spec: the peer-side decoding of a response body — the
extension is outside this repository.  Per §6, the response body is
`{id, success, data?, error?}`; decoding reads the `id` string, the
`success` boolean, and the optional `data` value and `error` string. -/
def decodeNativeResponse (j : Json) : Option NativeResponse :=
  match j with
  | Json.obj fields =>
    match lookupField fields "id", lookupField fields "success" with
    | some (Json.str i), some (Json.bool s) =>
      match (match lookupField fields "error" with
             | some (Json.str e) => some (some e)
             | none => some none
             | some _ => none) with
      | some err => some (NativeResponse.mk i s (lookupField fields "data") err)
      | none => none
    | _, _ => none
  | _ => none

/-- Embeds `send_response`: serialize the response to JSON bytes (the
serde_json rendering is the input `render`) and write one frame. -/
def send_response_bytes (render : Json → List Nat) (r : NativeResponse) : List Nat :=
  writeFrame (render (encodeNativeResponse r))

/-- Decoding a response through the same framing rules: read one frame,
parse its payload as JSON (`parse` is the textual JSON parser, the inverse
direction of `render`), and read the response structure out of it. -/
def decode_response (parse : List Nat → Option Json) (stdin : List Nat) :
    Option NativeResponse :=
  match readFrame stdin with
  | some (payload, _) => (parse payload).bind decodeNativeResponse
  | none => none

/-!
## A concrete invertible JSON byte serialization

The framing round trip is stated for any `render`/`parse` pair with
`parse (render j) = some j` — the contract of the external serde_json
compact writer and reader.  The self-delimiting codec below is one concrete
such pair, used to instantiate the statement on concrete inputs.
-/

/-- Self-delimiting unary encoding of a natural number: `n` ones then a
zero. -/
def encNatU (n : Nat) : List Nat := List.replicate n 1 ++ [0]

/-- Inverse of `encNatU`; returns the number and the unread rest. -/
def parseNatU : List Nat → Option (Nat × List Nat)
  | 0 :: rest => some (0, rest)
  | 1 :: rest => (parseNatU rest).map (fun p => (p.1 + 1, p.2))
  | _ => none

/-- Sign byte then the magnitude. -/
def encIntU (n : Int) : List Nat :=
  (if n < 0 then 1 else 0) :: encNatU n.natAbs

/-- Inverse of `encIntU`. -/
def parseIntU : List Nat → Option (Int × List Nat)
  | 0 :: rest => (parseNatU rest).map (fun p => ((p.1 : Int), p.2))
  | 1 :: rest => (parseNatU rest).map (fun p => (-(p.1 : Int), p.2))
  | _ => none

/-- Marker-terminated character list, each character by its code point. -/
def encChars : List Char → List Nat
  | [] => [0]
  | c :: cs => 1 :: (encNatU c.toNat ++ encChars cs)

/-- Fuelled inverse of `encChars`; each parsed character consumes one unit
of fuel. -/
def parseCharsF : Nat → List Nat → Option (List Char × List Nat)
  | 0, _ => none
  | _ + 1, 0 :: rest => some ([], rest)
  | fuel + 1, 1 :: rest =>
    match parseNatU rest with
    | some (n, r1) => (parseCharsF fuel r1).map (fun p => (Char.ofNat n :: p.1, p.2))
    | none => none
  | _ + 1, _ => none

/-- Strings as their character lists. -/
def encStr (s : String) : List Nat := encChars s.data

/-- Inverse of `encStr`; the input length bounds the character count, so it
serves as fuel. -/
def parseStr (bytes : List Nat) : Option (String × List Nat) :=
  (parseCharsF (bytes.length + 1) bytes).map (fun p => (String.mk p.1, p.2))

mutual

/-- Tagged self-delimiting serialization of a JSON value. -/
def encJson : Json → List Nat
  | Json.null => [0]
  | Json.bool b => [1, cond b 1 0]
  | Json.num n => 2 :: encIntU n
  | Json.str s => 3 :: encStr s
  | Json.arr l => 4 :: encArr l
  | Json.obj l => 5 :: encObj l

/-- Marker-terminated serialization of an array's elements. -/
def encArr : List Json → List Nat
  | [] => [0]
  | j :: l => 1 :: (encJson j ++ encArr l)

/-- Marker-terminated serialization of an object's fields. -/
def encObj : List (String × Json) → List Nat
  | [] => [0]
  | (k, j) :: l => 1 :: (encStr k ++ (encJson j ++ encObj l))

end

mutual

/-- Fuel a parse of this value is sure to succeed with. -/
def jsonFuel : Json → Nat
  | Json.arr l => arrFuel l + 1
  | Json.obj l => objFuel l + 1
  | _ => 1

/-- Fuel bound for an array body. -/
def arrFuel : List Json → Nat
  | [] => 1
  | j :: l => max (jsonFuel j) (arrFuel l) + 1

/-- Fuel bound for an object body. -/
def objFuel : List (String × Json) → Nat
  | [] => 1
  | (_, j) :: l => max (jsonFuel j) (objFuel l) + 1

end

mutual

/-- Fuelled inverse of `encJson`. -/
def parseJsonF : Nat → List Nat → Option (Json × List Nat)
  | 0, _ => none
  | _ + 1, 0 :: rest => some (Json.null, rest)
  | _ + 1, 1 :: b :: rest => some (Json.bool (b == 1), rest)
  | _ + 1, 2 :: rest => (parseIntU rest).map (fun p => (Json.num p.1, p.2))
  | _ + 1, 3 :: rest => (parseStr rest).map (fun p => (Json.str p.1, p.2))
  | fuel + 1, 4 :: rest => (parseArrF fuel rest).map (fun p => (Json.arr p.1, p.2))
  | fuel + 1, 5 :: rest => (parseObjF fuel rest).map (fun p => (Json.obj p.1, p.2))
  | _ + 1, _ => none

/-- Fuelled inverse of `encArr`. -/
def parseArrF : Nat → List Nat → Option (List Json × List Nat)
  | 0, _ => none
  | _ + 1, 0 :: rest => some ([], rest)
  | fuel + 1, 1 :: rest =>
    match parseJsonF fuel rest with
    | some (j, r1) => (parseArrF fuel r1).map (fun p => (j :: p.1, p.2))
    | none => none
  | _ + 1, _ => none

/-- Fuelled inverse of `encObj`. -/
def parseObjF : Nat → List Nat → Option (List (String × Json) × List Nat)
  | 0, _ => none
  | _ + 1, 0 :: rest => some ([], rest)
  | fuel + 1, 1 :: rest =>
    match parseStr rest with
    | some (k, r1) =>
      match parseJsonF fuel r1 with
      | some (j, r2) => (parseObjF fuel r2).map (fun p => ((k, j) :: p.1, p.2))
      | none => none
    | none => none
  | _ + 1, _ => none

end

/-- The concrete byte renderer instantiating `render`. -/
def renderJsonU : Json → List Nat := encJson

/-- The concrete byte parser instantiating `parse`; the input length bounds
the fuel a rendered value can need. -/
def parseJsonU (bytes : List Nat) : Option Json :=
  match parseJsonF bytes.length bytes with
  | some (j, []) => some j
  | _ => none

/-!
## Claims about the state store and server manager
-/

/-- C10: `updateDownloadStatus(downloading, progress)` sets exactly the two
download fields and writes every other field of the state it read back
unchanged. -/
theorem C10_update_download_status_frame (d : Bool) (p : Option Rat) (st : IpcState) :
    (update_download_status d p st).is_downloading = d
    ∧ (update_download_status d p st).download_progress = p
    ∧ (update_download_status d p st).server_pid = st.server_pid
    ∧ (update_download_status d p st).server_running = st.server_running
    ∧ (update_download_status d p st).server_port = st.server_port
    ∧ (update_download_status d p st).server_ctx_size = st.server_ctx_size
    ∧ (update_download_status d p st).server_gpu_layers = st.server_gpu_layers
    ∧ (update_download_status d p st).tauri_app_pid = st.tauri_app_pid
    ∧ (update_download_status d p st).tauri_app_heartbeat = st.tauri_app_heartbeat := by
  simp [update_download_status]

/-- C6: `stopByPid` never fails, always leaves the server fields of
SharedState cleared (`server_running = false`, `server_pid = none`, and
port/ctx/gpu cleared), and running it a second time changes nothing. -/
theorem C6_stop_by_pid_idempotent (pid : Nat) (st : IpcState) :
    (stop_server_by_pid pid st).1 = Except.ok ()
    ∧ (stop_server_by_pid pid st).2.server_running = false
    ∧ (stop_server_by_pid pid st).2.server_pid = none
    ∧ (stop_server_by_pid pid st).2.server_port = none
    ∧ (stop_server_by_pid pid st).2.server_ctx_size = none
    ∧ (stop_server_by_pid pid st).2.server_gpu_layers = none
    ∧ stop_server_by_pid pid (stop_server_by_pid pid st).2 = stop_server_by_pid pid st := by
  simp [stop_server_by_pid, update_server_status]

/-- C3: when SharedState records a running server under a pid the OS probe
reports dead (or under no pid at all), `status()` reports not-running and
writes back a corrected state with `server_running = false` and the pid
cleared. -/
theorem C3_get_status_self_heals (alive : Nat → Bool) (st : IpcState)
    (hrun : st.server_running = true)
    (hdead : ∀ p, st.server_pid = some p → alive p = false) :
    (get_status alive st).1.1 = false
    ∧ (get_status alive st).2.server_running = false
    ∧ (get_status alive st).2.server_pid = none := by
  cases hpid : st.server_pid with
  | none => simp [get_status, hrun, hpid, update_server_status]
  | some p => simp [get_status, hrun, hpid, hdead p hpid, update_server_status]

/-- Witness for C3 at a concrete stale state and a probe that reports every
pid dead. -/
theorem C3_get_status_self_heals_witness :
    (get_status (fun _ => false)
        { IpcState.default with server_running := true, server_pid := some 42 }).1.1 = false
    ∧ (get_status (fun _ => false)
        { IpcState.default with server_running := true, server_pid := some 42 }).2.server_running
        = false
    ∧ (get_status (fun _ => false)
        { IpcState.default with server_running := true, server_pid := some 42 }).2.server_pid
        = none :=
  C3_get_status_self_heals (fun _ => false) _ rfl (fun _ _ => rfl)

/-- C9: `status()` echoes the `server_pid` of the snapshot it read even when
it reports not-running: for a stale record the returned pair is
`(false, some pid)` although the persisted correction clears the pid. -/
theorem C9_get_status_returns_stale_pid (alive : Nat → Bool) (st : IpcState) (pid : Nat)
    (hrun : st.server_running = true)
    (hpid : st.server_pid = some pid)
    (hdead : alive pid = false) :
    (get_status alive st).1 = (false, some pid)
    ∧ (get_status alive st).2.server_pid = none := by
  simp [get_status, hrun, hpid, hdead, update_server_status]

/-- Witness for C9 at a concrete stale state. -/
theorem C9_get_status_returns_stale_pid_witness :
    (get_status (fun _ => false)
        { IpcState.default with server_running := true, server_pid := some 42 }).1
        = (false, some 42)
    ∧ (get_status (fun _ => false)
        { IpcState.default with server_running := true, server_pid := some 42 }).2.server_pid
        = none :=
  C9_get_status_returns_stale_pid (fun _ => false) _ 42 rfl rfl rfl

/-- C5: a config with `ctx_size` outside `[6000, 100000]` or `gpu_layers`
above 41 makes `start` fail before any side effect — nothing is spawned and
the shared state is untouched — while every config inside those ranges
passes validation. -/
theorem C5_start_rejects_invalid_config (env : StartEnv) (config : ServerConfig)
    (st : IpcState)
    (hbad : config.ctx_size < 6000 ∨ 100000 < config.ctx_size ∨ 41 < config.gpu_layers) :
    exceptOk (start_server_process env config st).1 = false
    ∧ (start_server_process env config st).2.1 = st
    ∧ (start_server_process env config st).2.2 = false
    ∧ ∀ c : ServerConfig, 6000 ≤ c.ctx_size → c.ctx_size ≤ 100000 → c.gpu_layers ≤ 41 →
        validate_config c = Except.ok () := by
  have hv : ∃ e, validate_config config = Except.error e := by
    unfold validate_config
    split
    · exact ⟨_, rfl⟩
    · split
      · exact ⟨_, rfl⟩
      · rename_i hA hB
        exfalso
        simp only [Bool.or_eq_true, decide_eq_true_eq, not_or] at hA hB
        rcases hbad with h | h | h <;> omega
  obtain ⟨e, he⟩ := hv
  refine ⟨?_, ?_, ?_, ?_⟩
  · unfold start_server_process; rw [he]; rfl
  · unfold start_server_process; rw [he]
  · unfold start_server_process; rw [he]
  · intro c h1 h2 h3
    unfold validate_config
    rw [if_neg, if_neg]
    · simp only [gt_iff_lt, decide_eq_true_eq]; omega
    · simp only [gt_iff_lt, Bool.or_eq_true, decide_eq_true_eq, not_or]; omega

/-- Witness for C5 at a concrete out-of-range config (`ctx_size = 0`). -/
theorem C5_start_rejects_invalid_config_witness :
    exceptOk (start_server_process
        (StartEnv.mk (fun _ => false) true true true (Except.ok 7))
        (ServerConfig.mk 10345 0 0) IpcState.default).1 = false
    ∧ (start_server_process
        (StartEnv.mk (fun _ => false) true true true (Except.ok 7))
        (ServerConfig.mk 10345 0 0) IpcState.default).2.1 = IpcState.default
    ∧ (start_server_process
        (StartEnv.mk (fun _ => false) true true true (Except.ok 7))
        (ServerConfig.mk 10345 0 0) IpcState.default).2.2 = false
    ∧ ∀ c : ServerConfig, 6000 ≤ c.ctx_size → c.ctx_size ≤ 100000 → c.gpu_layers ≤ 41 →
        validate_config c = Except.ok () :=
  C5_start_rejects_invalid_config _ _ _ (Or.inl (by decide))

/-- C8: a push is written exactly when the fresh snapshot differs from the
cached one (or none is cached yet); hence two consecutive requests over an
unchanged underlying status produce at most one push in total. -/
theorem C8_status_push_suppression (s : CachedStatus) (cached : Option CachedStatus) :
    ((check_and_push_status s cached).1 = true ↔ cached ≠ some s)
    ∧ (cond (check_and_push_status s cached).1 1 0) +
        (cond (check_and_push_status s (check_and_push_status s cached).2).1 1 0) ≤ 1 := by
  cases cached with
  | none => simp [check_and_push_status]
  | some c =>
    by_cases h : c = s
    · subst h; simp [check_and_push_status]
    · simp [check_and_push_status, h, Ne.symm h]

/-- C2 counterexample: a state file whose single byte `0xFF` is not valid
UTF-8 makes `read_ipc_state` return an error — the read does not fall back
to the default state for this on-disk content, whatever the JSON parser
does. -/
theorem C2_read_errors_on_invalid_utf8 :
    exceptOk (read_ipc_state (fun _ => none) (some [255])) = false := by rfl

/-- C2 as amended: reading the shared state succeeds whenever the file is
absent or its bytes are valid UTF-8, and in both fallback cases the result
is pinned to the all-empty default state: an absent file reads as the
default, and a present valid-UTF-8 file whose decoded content the JSON
parser rejects also reads as the default; only a file whose bytes are not
valid UTF-8 makes the read fail. -/
theorem C2_read_defaults_on_absent_or_utf8 (parse : String → Option IpcState)
    (file : Option (List Nat))
    (hutf8 : ∀ bytes, file = some bytes → (utf8Decode bytes).isSome = true) :
    exceptOk (read_ipc_state parse file) = true
    ∧ read_ipc_state parse none = Except.ok IpcState.default
    ∧ (∀ bytes cs, file = some bytes → utf8Decode bytes = some cs →
        parse (String.mk cs) = none →
        read_ipc_state parse file = Except.ok IpcState.default) := by
  refine ⟨?_, rfl, ?_⟩
  · cases file with
    | none => rfl
    | some bytes =>
      have h := hutf8 bytes rfl
      unfold read_ipc_state
      cases hdec : utf8Decode bytes with
      | none => rw [hdec] at h; simp at h
      | some cs => simp only [hdec]; rfl
  · intro bytes cs hf hdec hp
    subst hf
    unfold read_ipc_state
    simp only [hdec, hp, Option.getD_none]

/-- Witness for C2 as amended: the ASCII bytes of `"hi"` are valid UTF-8 but
not a JSON `IpcState`, and the read yields exactly the default state. -/
theorem C2_read_defaults_on_absent_or_utf8_witness :
    exceptOk (read_ipc_state (fun _ => none) (some [104, 105])) = true
    ∧ read_ipc_state (fun _ => none) none = Except.ok IpcState.default
    ∧ (∀ bytes cs, (some [104, 105] : Option (List Nat)) = some bytes →
        utf8Decode bytes = some cs →
        (fun (_ : String) => (none : Option IpcState)) (String.mk cs) = none →
        read_ipc_state (fun _ => none) (some [104, 105]) = Except.ok IpcState.default) :=
  C2_read_defaults_on_absent_or_utf8 (fun _ => none) (some [104, 105])
    (fun bytes hb => by rw [Option.some.injEq] at hb; rw [← hb]; rfl)

/-!
## Claims about the download engine
-/

/-- C7: with a non-empty configured hash and a case-insensitive mismatch,
the model download fails and the destination file is gone afterwards; an
empty configured hash makes `verify_sha256` succeed without comparing. -/
theorem C7_checksum_mismatch_deletes_file (env : ModelEnv) (st0 : IpcState) (n : Nat)
    (hdl : env.downloadOutcome = Except.ok n)
    (hne : env.expectedHash ≠ "")
    (hmm : strLower env.fileHash ≠ strLower env.expectedHash) :
    exceptOk (download_model_common env st0).1 = false
    ∧ (download_model_common env st0).2.2 = false
    ∧ ∀ h : String, verify_sha256 h "" = Except.ok () := by
  have hv : ∃ e, verify_sha256 env.fileHash env.expectedHash = Except.error e := by
    unfold verify_sha256
    rw [if_neg hne, if_pos hmm]
    exact ⟨_, rfl⟩
  obtain ⟨e, he⟩ := hv
  refine ⟨?_, ?_, ?_⟩
  · unfold download_model_common; rw [hdl, he]; rfl
  · unfold download_model_common; rw [hdl, he]
  · intro h; unfold verify_sha256; rw [if_pos rfl]

/-- Witness for C7 at a concrete environment: the download delivered bytes
hashing to `"aa"` while `"bb"` was configured. -/
theorem C7_checksum_mismatch_deletes_file_witness :
    exceptOk (download_model_common
        (ModelEnv.mk (Except.ok 5) false "aa" "bb" (Except.ok ())) IpcState.default).1 = false
    ∧ (download_model_common
        (ModelEnv.mk (Except.ok 5) false "aa" "bb" (Except.ok ())) IpcState.default).2.2 = false
    ∧ ∀ h : String, verify_sha256 h "" = Except.ok () :=
  C7_checksum_mismatch_deletes_file _ _ 5 rfl (by decide) (by decide)

/-- The environment exhibiting the C1 divergence: range support confirmed,
no partial file, a known total size of 1000 bytes, and a stream (initial
and after every reconnect) that immediately reports a chunk-read error, so
the retry budget of 10 is exhausted. -/
def envC1 : LlamaEnv :=
  LlamaEnv.mk true false 0 (Except.ok (some 1000, [StreamEvent.chunkErr]))
    (fun _ => Except.ok [StreamEvent.chunkErr]) "" "" true (Except.ok ()) true true

/-- C1 fails on the code: `download_llama_cpp` sets `is_downloading = true`
when the stream opens, and its transient-retry-exhaustion exit returns the
error with the download fields still set — the state file says a download
is in progress after the operation returned.  (`download_model_common`
clears on this path; `download_llama_cpp` does not.) -/
theorem C1_llama_retry_exhaustion_keeps_downloading :
    (download_llama_cpp envC1 20 IpcState.default).map
        (fun r => (exceptOk r.1, r.2.is_downloading)) = some (false, true) := by rfl




/-!
## Claims about the wire protocol
-/

/-- Reading back the four little-endian bytes of a `u32` recovers it. -/
theorem u32FromNeBytes_u32NeBytes (n : Nat) (h : n < 2 ^ 32) :
    u32FromNeBytes (n % 256) (n / 256 % 256) (n / 65536 % 256) (n / 16777216 % 256) = n := by
  unfold u32FromNeBytes
  omega

/-- One whole frame written by `send_response` is read back as exactly its
payload, with nothing left on the stream. -/
theorem readFrame_writeFrame (p : List Nat) (h : p.length < 2 ^ 32) :
    readFrame (writeFrame p) = some (p, []) := by
  unfold writeFrame u32NeBytes readFrame
  simp only [List.cons_append, List.nil_append]
  rw [u32FromNeBytes_u32NeBytes p.length h]
  rw [if_neg (lt_irrefl p.length)]
  simp

/-- Reading the `{id, success, data/error}` fields out of the serialized
object recovers the response. -/
theorem decodeNativeResponse_encodeNativeResponse (r : NativeResponse) :
    decodeNativeResponse (encodeNativeResponse r) = some r := by
  obtain ⟨i, s, d, e⟩ := r
  cases d <;> cases e <;> rfl

/-- C4: framing an outgoing response — 4-byte native-endian length prefix
plus that many bytes of serialized JSON — and decoding the result through
the same framing rules reproduces the original `{id, success, data/error}`
structure exactly, for every response and every JSON byte serialization
`render`/`parse` that is a left inverse pair (serde_json's contract) and
every payload below the `u32` range. -/
theorem C4_response_framing_roundtrip (render : Json → List Nat)
    (parse : List Nat → Option Json)
    (hrt : ∀ j, parse (render j) = some j)
    (r : NativeResponse)
    (hlen : (render (encodeNativeResponse r)).length < 2 ^ 32) :
    decode_response parse (send_response_bytes render r) = some r := by
  unfold decode_response send_response_bytes
  rw [readFrame_writeFrame _ hlen]
  simp only [hrt, Option.bind_some, Option.some_bind]
  exact decodeNativeResponse_encodeNativeResponse r

/-- Unary round trip. -/
theorem parseNatU_encNatU (n : Nat) : ∀ rest, parseNatU (encNatU n ++ rest) = some (n, rest) := by
  induction n with
  | zero => intro rest; rfl
  | succ n ih =>
    intro rest
    simp only [encNatU, List.replicate_succ, List.cons_append, List.append_assoc] at *
    simp only [parseNatU, ih rest, Option.map_some']

/-- Signed round trip. -/
theorem parseIntU_encIntU (n : Int) :
    ∀ rest, parseIntU (encIntU n ++ rest) = some (n, rest) := by
  intro rest
  by_cases h : n < 0
  · simp only [encIntU, if_pos h, List.cons_append]
    simp only [parseIntU, parseNatU_encNatU, Option.map_some', Option.some.injEq,
      Prod.mk.injEq, and_true]
    omega
  · simp only [encIntU, if_neg h, List.cons_append]
    simp only [parseIntU, parseNatU_encNatU, Option.map_some', Option.some.injEq,
      Prod.mk.injEq, and_true]
    omega

/-- Character-list round trip, with any fuel above the character count. -/
theorem parseCharsF_encChars (cs : List Char) :
    ∀ fuel rest, cs.length < fuel →
      parseCharsF fuel (encChars cs ++ rest) = some (cs, rest) := by
  induction cs with
  | nil =>
    intro fuel rest hf
    match fuel, hf with
    | f + 1, _ => rfl
  | cons c cs ih =>
    intro fuel rest hf
    match fuel, hf with
    | f + 1, hf =>
      simp only [encChars, List.cons_append, List.append_assoc]
      simp only [parseCharsF, parseNatU_encNatU]
      rw [ih f rest (by simpa using Nat.lt_of_succ_lt_succ hf)]
      simp only [Option.map_some', Char.ofNat_toNat]

/-- The character encoding is longer than the character count. -/
theorem length_lt_encChars_length (cs : List Char) :
    cs.length < (encChars cs).length := by
  induction cs with
  | nil => simp [encChars]
  | cons c cs ih =>
    simp only [encChars, List.length_cons, List.length_append]
    omega

/-- String round trip. -/
theorem parseStr_encStr (s : String) :
    ∀ rest, parseStr (encStr s ++ rest) = some (s, rest) := by
  intro rest
  obtain ⟨cs⟩ := s
  have hlen : cs.length < (encChars cs ++ rest).length + 1 := by
    have := length_lt_encChars_length cs
    simp only [List.length_append]
    omega
  simp only [parseStr, encStr]
  rw [parseCharsF_encChars cs _ rest hlen]
  rfl

mutual

/-- JSON value round trip through the concrete codec, at any fuel at or
above the value's fuel bound. -/
theorem parseJsonF_encJson (j : Json) : ∀ fuel rest, jsonFuel j ≤ fuel →
    parseJsonF fuel (encJson j ++ rest) = some (j, rest) := by
  match j with
  | Json.null =>
    intro fuel rest hf
    match fuel, hf with
    | f + 1, _ => rfl
  | Json.bool b =>
    intro fuel rest hf
    match fuel, hf with
    | f + 1, _ => cases b <;> rfl
  | Json.num n =>
    intro fuel rest hf
    match fuel, hf with
    | f + 1, _ =>
      simp only [encJson, List.cons_append, List.append_assoc]
      simp only [parseJsonF, parseIntU_encIntU, Option.map_some']
  | Json.str s =>
    intro fuel rest hf
    match fuel, hf with
    | f + 1, _ =>
      simp only [encJson, List.cons_append, List.append_assoc]
      simp only [parseJsonF, parseStr_encStr, Option.map_some']
  | Json.arr l =>
    intro fuel rest hf
    match fuel, hf with
    | f + 1, hf =>
      simp only [encJson, List.cons_append]
      simp only [parseJsonF]
      rw [parseArrF_encArr l f rest (by simp only [jsonFuel] at hf; omega)]
      rfl
  | Json.obj l =>
    intro fuel rest hf
    match fuel, hf with
    | f + 1, hf =>
      simp only [encJson, List.cons_append]
      simp only [parseJsonF]
      rw [parseObjF_encObj l f rest (by simp only [jsonFuel] at hf; omega)]
      rfl

/-- Array-body round trip. -/
theorem parseArrF_encArr (l : List Json) : ∀ fuel rest, arrFuel l ≤ fuel →
    parseArrF fuel (encArr l ++ rest) = some (l, rest) := by
  match l with
  | [] =>
    intro fuel rest hf
    match fuel, hf with
    | f + 1, _ => rfl
  | j :: l =>
    intro fuel rest hf
    match fuel, hf with
    | f + 1, hf =>
      have hj : jsonFuel j ≤ f := by
        simp only [arrFuel] at hf
        have := le_max_left (jsonFuel j) (arrFuel l)
        omega
      have hl : arrFuel l ≤ f := by
        simp only [arrFuel] at hf
        have := le_max_right (jsonFuel j) (arrFuel l)
        omega
      simp only [encArr, List.cons_append, List.append_assoc]
      simp only [parseArrF, parseJsonF_encJson j f (encArr l ++ rest) hj,
        parseArrF_encArr l f rest hl, Option.map_some']

/-- Object-body round trip. -/
theorem parseObjF_encObj (l : List (String × Json)) : ∀ fuel rest, objFuel l ≤ fuel →
    parseObjF fuel (encObj l ++ rest) = some (l, rest) := by
  match l with
  | [] =>
    intro fuel rest hf
    match fuel, hf with
    | f + 1, _ => rfl
  | (k, j) :: l =>
    intro fuel rest hf
    match fuel, hf with
    | f + 1, hf =>
      have hj : jsonFuel j ≤ f := by
        simp only [objFuel] at hf
        have := le_max_left (jsonFuel j) (objFuel l)
        omega
      have hl : objFuel l ≤ f := by
        simp only [objFuel] at hf
        have := le_max_right (jsonFuel j) (objFuel l)
        omega
      simp only [encObj, List.cons_append, List.append_assoc]
      simp only [parseObjF, parseStr_encStr k (encJson j ++ (encObj l ++ rest)),
        parseJsonF_encJson j f (encObj l ++ rest) hj,
        parseObjF_encObj l f rest hl, Option.map_some']

end

mutual

/-- The fuel bound of a value never exceeds its encoding length. -/
theorem jsonFuel_le_encJson (j : Json) : jsonFuel j ≤ (encJson j).length := by
  match j with
  | Json.null => simp [jsonFuel, encJson]
  | Json.bool b => simp [jsonFuel, encJson]
  | Json.num n => simp [jsonFuel, encJson]
  | Json.str s => simp [jsonFuel, encJson]
  | Json.arr l =>
    have := arrFuel_le_encArr l
    simp only [jsonFuel, encJson, List.length_cons]
    omega
  | Json.obj l =>
    have := objFuel_le_encObj l
    simp only [jsonFuel, encJson, List.length_cons]
    omega

/-- Fuel bound of an array body against its encoding length. -/
theorem arrFuel_le_encArr (l : List Json) : arrFuel l ≤ (encArr l).length := by
  match l with
  | [] => simp [arrFuel, encArr]
  | j :: l =>
    have h1 := jsonFuel_le_encJson j
    have h2 := arrFuel_le_encArr l
    simp only [arrFuel, encArr, List.length_cons, List.length_append]
    have := Nat.max_le.mpr (And.intro (le_trans h1 (Nat.le_add_right _ _))
      (le_trans h2 (Nat.le_add_left _ _)))
    omega

/-- Fuel bound of an object body against its encoding length. -/
theorem objFuel_le_encObj (l : List (String × Json)) : objFuel l ≤ (encObj l).length := by
  match l with
  | [] => simp [objFuel, encObj]
  | (k, j) :: l =>
    have h1 := jsonFuel_le_encJson j
    have h2 := objFuel_le_encObj l
    simp only [objFuel, encObj, List.length_cons, List.length_append]
    have h3 : jsonFuel j ≤ (encStr k).length + ((encJson j).length + (encObj l).length) := by
      omega
    have h4 : objFuel l ≤ (encStr k).length + ((encJson j).length + (encObj l).length) := by
      omega
    have := Nat.max_le.mpr (And.intro h3 h4)
    omega

end

/-- The concrete codec is a left-inverse pair: parsing a rendered value
recovers it. -/
theorem parseJsonU_renderJsonU (j : Json) : parseJsonU (renderJsonU j) = some j := by
  unfold parseJsonU renderJsonU
  have h := parseJsonF_encJson j (encJson j).length [] (jsonFuel_le_encJson j)
  rw [List.append_nil] at h
  rw [h]

set_option maxRecDepth 100000 in
/-- Witness for C4: the response `{id: "1", success: true}` framed through
the concrete codec decodes back to itself. -/
theorem C4_response_framing_roundtrip_witness :
    decode_response parseJsonU
        (send_response_bytes renderJsonU (NativeResponse.mk "1" true none none))
      = some (NativeResponse.mk "1" true none none) :=
  C4_response_framing_roundtrip renderJsonU parseJsonU parseJsonU_renderJsonU
    (NativeResponse.mk "1" true none none) (by decide)
